import Mathlib

/-!
Verification of the NewsNewt request-correlation and shared-engine
orchestration layer (src/app/routes.py, src/app/main.py, src/app/crawler.py,
src/app/extraction.py) against its natural-language specification.

The Python dictionaries `app.state.pending_requests` and
`app.state.requests_to_results` are embedded as association lists; the
asyncio futures stored in `pending_requests` are embedded as an explicit
`FState` (unresolved or resolved with a result).  Code running between two
`await` points executes atomically on the single asyncio event loop, so the
concurrent system (many `/scrape` callers, one shared crawler loop) is
embedded as a labelled transition system whose atomic steps are exactly the
await-to-await segments of the source.
-/

namespace NewsNewt

/-! ### Association-list operations (embedding of Python dict operations) -/

def lookupA {κ V : Type} [DecidableEq κ] : List (κ × V) → κ → Option V
  | [], _ => none
  | (k', v) :: rest, k => if k' = k then some v else lookupA rest k

def eraseA {κ V : Type} [DecidableEq κ] : List (κ × V) → κ → List (κ × V)
  | [], _ => []
  | (k', v) :: rest, k => if k' = k then eraseA rest k else (k', v) :: eraseA rest k

/-- Python dict assignment `d[k] = v` (insert or overwrite). -/
def insertA {κ V : Type} [DecidableEq κ] (l : List (κ × V)) (k : κ) (v : V) : List (κ × V) :=
  (k, v) :: eraseA l k

/-- Update the value stored at a key that is already present; keys unchanged. -/
def updateA {κ V : Type} [DecidableEq κ] : List (κ × V) → κ → V → List (κ × V)
  | [], _, _ => []
  | (k', v') :: rest, k, v =>
    if k' = k then (k, v) :: updateA rest k v else (k', v') :: updateA rest k v

theorem lookupA_eraseA_self {κ V : Type} [DecidableEq κ] (l : List (κ × V)) (k : κ) :
    lookupA (eraseA l k) k = none := by
  induction l with
  | nil => rfl
  | cons p rest ih =>
    obtain ⟨k', v⟩ := p
    by_cases h : k' = k <;> simp [eraseA, lookupA, h, ih]

theorem lookupA_eraseA_ne {κ V : Type} [DecidableEq κ] (l : List (κ × V)) (k id : κ)
    (h : id ≠ k) : lookupA (eraseA l k) id = lookupA l id := by
  induction l with
  | nil => rfl
  | cons p rest ih =>
    obtain ⟨k', v⟩ := p
    by_cases hk : k' = k
    · subst hk
      rw [eraseA, if_pos rfl, lookupA, if_neg (fun hh => h hh.symm), ih]
    · by_cases hid : k' = id
      · rw [eraseA, if_neg hk, lookupA, if_pos hid, lookupA, if_pos hid]
      · rw [eraseA, if_neg hk, lookupA, if_neg hid, lookupA, if_neg hid, ih]

theorem lookupA_insertA_self {κ V : Type} [DecidableEq κ] (l : List (κ × V)) (k : κ) (v : V) :
    lookupA (insertA l k v) k = some v := by
  simp [insertA, lookupA]

theorem lookupA_insertA_ne {κ V : Type} [DecidableEq κ] (l : List (κ × V)) (k id : κ) (v : V)
    (h : id ≠ k) : lookupA (insertA l k v) id = lookupA l id := by
  simp only [insertA, lookupA]
  rw [if_neg (fun hh => h hh.symm)]
  exact lookupA_eraseA_ne l k id h

theorem lookupA_updateA_self {κ V : Type} [DecidableEq κ] (l : List (κ × V)) (k : κ) (v w : V)
    (h : lookupA l k = some w) : lookupA (updateA l k v) k = some v := by
  induction l with
  | nil => simp [lookupA] at h
  | cons p rest ih =>
    obtain ⟨k', v'⟩ := p
    by_cases hk : k' = k
    · simp [updateA, lookupA, hk]
    · simp only [lookupA, if_neg hk] at h
      simp [updateA, lookupA, hk, ih h]

theorem lookupA_updateA_none {κ V : Type} [DecidableEq κ] (l : List (κ × V)) (k : κ) (v : V)
    (h : lookupA l k = none) : lookupA (updateA l k v) k = none := by
  induction l with
  | nil => rfl
  | cons p rest ih =>
    obtain ⟨k', v'⟩ := p
    by_cases hk : k' = k
    · simp [lookupA, hk] at h
    · simp only [lookupA, if_neg hk] at h
      simp [updateA, lookupA, hk, ih h]

theorem lookupA_updateA_ne {κ V : Type} [DecidableEq κ] (l : List (κ × V)) (k id : κ) (v : V)
    (h : id ≠ k) : lookupA (updateA l k v) id = lookupA l id := by
  induction l with
  | nil => rfl
  | cons p rest ih =>
    obtain ⟨k', v'⟩ := p
    by_cases hk : k' = k
    · subst hk
      simp only [updateA, if_pos rfl, lookupA]
      rw [if_neg (fun hh => h hh.symm), if_neg (fun hh => h hh.symm)]
      exact ih
    · by_cases hid : k' = id
      · rw [updateA, if_neg hk, lookupA, if_pos hid, lookupA, if_pos hid]
      · rw [updateA, if_neg hk, lookupA, if_neg hid, lookupA, if_neg hid, ih]

/-! ### Positional list access for caller bookkeeping -/

def getAt? {α : Type} : List α → Nat → Option α
  | [], _ => none
  | x :: _, 0 => some x
  | _ :: xs, n + 1 => getAt? xs n

def setAt {α : Type} : List α → Nat → α → List α
  | [], _, _ => []
  | _ :: xs, 0, v => v :: xs
  | x :: xs, n + 1, v => x :: setAt xs n v

theorem getAt?_setAt_self {α : Type} (l : List α) (i : Nat) (v w : α)
    (h : getAt? l i = some w) : getAt? (setAt l i v) i = some v := by
  induction l generalizing i with
  | nil => simp [getAt?] at h
  | cons x xs ih =>
    cases i with
    | zero => rfl
    | succ n => exact ih n h

theorem getAt?_setAt_ne {α : Type} (l : List α) (i j : Nat) (v : α)
    (h : j ≠ i) : getAt? (setAt l i v) j = getAt? l j := by
  induction l generalizing i j with
  | nil => rfl
  | cons x xs ih =>
    cases i with
    | zero =>
      cases j with
      | zero => exact absurd rfl h
      | succ m => rfl
    | succ n =>
      cases j with
      | zero => rfl
      | succ m => exact ih n m (fun hh => h (by rw [hh]))

/-! ### Substring test (embedding of the Python `in` operator on strings) -/

def containsSub (hay need : String) : Bool :=
  hay.toList.tails.any (fun t => need.toList.isPrefixOf t)

/-- Embedding of Python `str.startswith`. -/
def pyStartsWith (s pre : String) : Bool :=
  pre.toList.isPrefixOf s.toList

/-- Embedding of Python `str.lower()`: per-character lower-casing. -/
def pyLower (s : String) : String :=
  ⟨s.toList.map Char.toLower⟩

/-- Embedding of Python `str.strip()`: remove leading and trailing
whitespace. -/
def pyStrip (s : String) : String :=
  ⟨((s.toList.dropWhile Char.isWhitespace).reverse.dropWhile Char.isWhitespace).reverse⟩

/-! ### Page model and field extraction (src/app/extraction.py)

A `Page` abstracts the Playwright page: `query s` is `page.locator(s).first`
(`none` when `locator.count() == 0`, and an element otherwise, carrying its
`text_content()` and its `content` attribute), `bodyText` is
`page.text_content("body")`, and `frames` the iframe URLs. -/

structure Elem where
  text : Option String
  content : Option String

structure Page where
  query : String → Option Elem
  bodyText : Option String
  frames : List String

/-- Value read from an element: `get_attribute("content")` for selectors that
start with `meta`, `text_content()` otherwise (extraction.py lines 192-195,
214-217). -/
def elemValue (sel : String) (e : Elem) : Option String :=
  if pyStartsWith sel "meta" then e.content else e.text

/-- Python truthiness of the optional string `value`. -/
def pyTruthy : Option String → Bool
  | none => false
  | some s => s ≠ ""

/-- The built-in fallback selector table of `extract_with_fallbacks`
(extraction.py lines 135-174). -/
def fallbacks : List (String × List String) :=
  [("title",
    ["h1", ".article-title", ".entry-title", ".post-title",
     "[itemprop=\x27headline\x27]", "meta[property=\x27og:title\x27]"]),
   ("content",
    ["article", "main", ".article-body", ".entry-content", ".post-content",
     "[role=\x27main\x27]", "[itemprop=\x27articleBody\x27]"]),
   ("author",
    [".author", ".author-name", "[rel=\x27author\x27]", "[itemprop=\x27author\x27]",
     "meta[name=\x27author\x27]"]),
   ("date",
    ["time", ".published-date", ".post-date", "[itemprop=\x27datePublished\x27]",
     "meta[property=\x27article:published_time\x27]"]),
   ("description",
    [".excerpt", ".description", ".summary", "meta[name=\x27description\x27]",
     "meta[property=\x27og:description\x27]"])]

/-- The fallback loop of `extract_with_fallbacks` (extraction.py lines
209-226): walk the fallback selectors in order, carrying the Python `value`
variable, and stop at the first value that is truthy with non-empty strip. -/
def tryFallbacks (page : Page) : List String → Option String → Option String
  | [], value => value
  | fb :: rest, value =>
    match page.query fb with
    | none => tryFallbacks page rest value
    | some e =>
      let v := elemValue fb e
      if pyTruthy v && (pyStrip (v.getD "") ≠ "") then v else tryFallbacks page rest v

/-- One iteration of the per-field loop of `extract_with_fallbacks`
(extraction.py lines 180-230): try the user-supplied css selector (when the
config has a `css` key), then — when the value is still falsy and the
lower-cased field name is in the fallback table — the fallback chain; the
stored value is the stripped result, empty string when nothing matched. -/
def extractField (page : Page) (field : String) (cfg : Option String) : String :=
  let value : Option String :=
    match cfg with
    | some css =>
      match page.query css with
      | some e => elemValue css e
      | none => none
    | none => none
  let value2 :=
    match lookupA fallbacks (pyLower field) with
    | some chain => if !(pyTruthy value) then tryFallbacks page chain value else value
    | none => value
  pyStrip (value2.getD "")

/-- `extract_with_fallbacks` (extraction.py lines 117-274).  A selector
config is embedded as its optional `css` entry.  When no selectors are given
the basic-page-info branch (lines 238-265) extracts `title` from `h1` and
`content` from `article, main` only, adding a key only for a non-empty
stripped value. -/
def extract_with_fallbacks (page : Page) (selectors : List (String × Option String)) :
    List (String × String) :=
  if selectors.isEmpty then
    (match page.query "h1" with
     | some e =>
       let tv := pyStrip ((e.text).getD "")
       if tv ≠ "" then [("title", tv)] else []
     | none => []) ++
    (match page.query "article, main" with
     | some e =>
       let cv := pyStrip ((e.text).getD "")
       if cv ≠ "" then [("content", cv)] else []
     | none => [])
  else
    selectors.map (fun p => (p.1, extractField page p.1 p.2))

/-- Stated from the specification, for comparison with the code: walk an
ordered fallback chain and return the (stripped) value of the first selector
that yields a non-empty match, empty string when none does. -/
def specFirstMatch (page : Page) : List String → String
  | [] => ""
  | sel :: rest =>
    match page.query sel with
    | some e =>
      let v := pyStrip ((elemValue sel e).getD "")
      if v ≠ "" then v else specFirstMatch page rest
    | none => specFirstMatch page rest

theorem pyStrip_empty : pyStrip "" = "" := rfl

theorem pyStrip_eq_empty_of_eq_empty (s : String) (h : s = "") : pyStrip s = "" := by
  rw [h]; rfl

theorem tryFallbacks_eq_specFirstMatch (page : Page) (fbs : List String)
    (v : Option String) (hv : pyStrip (v.getD "") = "") :
    pyStrip ((tryFallbacks page fbs v).getD "") = specFirstMatch page fbs := by
  induction fbs generalizing v with
  | nil => simpa [tryFallbacks, specFirstMatch] using hv
  | cons fb rest ih =>
    simp only [tryFallbacks, specFirstMatch]
    cases hq : page.query fb with
    | none => exact ih v hv
    | some e =>
      simp only
      cases hval : elemValue fb e with
      | none =>
        rw [if_neg (by simp [pyTruthy])]
        rw [if_neg (by simp [Option.getD, pyStrip_empty])]
        exact ih none (by simp [Option.getD, pyStrip_empty])
      | some s =>
        by_cases hs : pyStrip s = ""
        · rw [if_neg (by simp [pyTruthy, Option.getD, hs])]
          rw [if_neg (by simp [Option.getD, hs])]
          exact ih (some s) (by simp [Option.getD, hs])
        · have hne : s ≠ "" := fun hh => hs (pyStrip_eq_empty_of_eq_empty s hh)
          rw [if_pos (by simp [pyTruthy, Option.getD, hs, hne])]
          rw [if_pos (by simp [Option.getD, hs])]

/-! ### CAPTCHA detection (src/app/extraction.py, detect_captcha) -/

def captcha_keywords : List String :=
  ["captcha", "recaptcha", "hcaptcha", "verify you are human",
   "verify you\x27re human", "security check", "prove you\x27re not a robot",
   "cloudflare"]

def captcha_iframe_patterns : List String :=
  ["google.com/recaptcha", "hcaptcha.com", "captcha", "recaptcha"]

def captcha_selectors : List String :=
  [".g-recaptcha", "#g-recaptcha", ".h-captcha", "#h-captcha", "[data-sitekey]",
   "iframe[src*=\x27recaptcha\x27]", "iframe[src*=\x27hcaptcha\x27]"]

/-- `detect_captcha` (extraction.py lines 277-372): keyword scan of the
lower-cased body text, then iframe URL pattern scan, then known-element
scan. -/
def detect_captcha (page : Page) : Bool :=
  let page_text := pyLower (page.bodyText.getD "")
  if captcha_keywords.any (fun k => containsSub page_text k) then true
  else if page.frames.any
      (fun fu => captcha_iframe_patterns.any (fun p => containsSub (pyLower fu) p)) then true
  else captcha_selectors.any (fun s => (page.query s).isSome)

/-! ### Result assembly and the request handler (src/app/crawler.py lines
64-175, src/app/main.py lines 91-181)

`Res` is the `result` dictionary the handler builds (the ScrapeResult).
The elapsed wall time is not modelled; the handler takes the computed
`duration_ms` as a parameter. -/

structure Res where
  url : String
  data : List (String × String)
  status : Nat
  duration_ms : Nat
  error_type : Option String
  error_message : Option String
deriving DecidableEq

/-- Error classification in the handler except-branch (crawler.py line 147):
`"captcha_detected" if "CAPTCHA" in str(e) else "scraping_error"`. -/
def classifyError (e : String) : String :=
  if containsSub e "CAPTCHA" then "captcha_detected" else "scraping_error"

/-- The success result built at crawler.py lines 131-138. -/
def mkSuccessRes (url : String) (data : List (String × String)) (dur : Nat) : Res :=
  ⟨url, data, 200, dur, none, none⟩

/-- The error result built at crawler.py lines 159-168:
status `422 if error_type == "captcha_detected" else 500`. -/
def mkErrorRes (url e : String) (dur : Nat) : Res :=
  let error_type := classifyError e
  ⟨url, [], if error_type = "captcha_detected" then 422 else 500, dur,
   some error_type, some e⟩

/-- Environment-injected failures of the handler pipeline: a failure while
loading the page (steps 1-2, before the captcha check) or a failure during
extraction (step 4, after the captcha check); the string is `str(e)`. -/
inductive StepFailure where
  | load : String → StepFailure
  | extract : String → StepFailure

/-- The try-block of the handler (crawler.py lines 89-118): wait for load,
dismiss popups (which swallows its own failures), raise
`ValueError("CAPTCHA detected on page")` when `detect_captcha` is true, then
extract.  Returns the extracted data or the message of the raised
exception. -/
def pipelineRun (page : Page) (selectors : List (String × Option String))
    (env : Option StepFailure) : Except String (List (String × String)) :=
  match env with
  | some (.load m) => .error m
  | some (.extract m) =>
    if detect_captcha page then .error "CAPTCHA detected on page" else .error m
  | none =>
    if detect_captcha page then .error "CAPTCHA detected on page"
    else .ok (extract_with_fallbacks page selectors)

/-- The ScrapeResult the handler assembles for one work unit. -/
def handlerResult (url : String) (page : Page) (selectors : List (String × Option String))
    (env : Option StepFailure) (dur : Nat) : Res :=
  match pipelineRun page selectors env with
  | .ok data => mkSuccessRes url data dur
  | .error e => mkErrorRes url e dur

/-! ### The pending-request registry (app.state.pending_requests) -/

/-- State of one asyncio future stored in `pending_requests`. -/
inductive FState where
  | unresolved : FState
  | resolved : Res → FState
deriving DecidableEq

/-- The engine-side completion step (crawler.py lines 142-143 and 172-173):
`if request_id in app.state.pending_requests:
app.state.pending_requests[request_id].set_result(result)`.
`asyncio.Future.set_result` raises `InvalidStateError` when the future is
already resolved; when the id is not registered nothing happens. -/
def resolveStep (pending : List (Nat × FState)) (rid : Nat) (r : Res) :
    Except String (List (Nat × FState)) :=
  match lookupA pending rid with
  | none => .ok pending
  | some .unresolved => .ok (updateA pending rid (.resolved r))
  | some (.resolved _) => .error "InvalidStateError"

/-- The whole request handler body for a work unit that carries a
request_id: build the result from the pipeline outcome, write it to
`app.state.requests_to_results` (crawler.py lines 139 and 169), then run the
completion step.  An `.error` value is an exception escaping the handler
into the crawler loop. -/
def request_handler (pending : List (Nat × FState)) (store : List (Nat × Res))
    (rid : Nat) (url : String) (page : Page) (selectors : List (String × Option String))
    (env : Option StepFailure) (dur : Nat) :
    Except String (List (Nat × FState) × List (Nat × Res)) :=
  let result := handlerResult url page selectors env dur
  let store2 := insertA store rid result
  match resolveStep pending rid result with
  | .ok p2 => .ok (p2, store2)
  | .error e => .error e

/-! ### Caller-side timeout computation (routes.py line 39, main.py line 280) -/

/-- `timeout = (request.timeout_ms / 1000) if request.timeout_ms else 30.0`:
the deadline in seconds, from the optional `timeout_ms` field. -/
def scrapeTimeout (timeout_ms : Option Int) : Rat :=
  match timeout_ms with
  | none => 30
  | some t => if t = 0 then 30 else (t : Rat) / 1000

/-! ### Concrete pages used as test inputs -/

/-- A page with no matching elements, no body text and no frames. -/
def trivPage : Page := ⟨fun _ => none, none, []⟩

/-- A page whose body text contains the captcha keyword
"verify you are human". -/
def capPage : Page := ⟨fun _ => none, some "Please verify you are human", []⟩

/-- A page with no `h1` but with an `.article-title` element. -/
def cexPage : Page :=
  ⟨fun s => if s = ".article-title" then some ⟨some "Fallback Title", none⟩ else none,
   none, []⟩

def rX : Res := mkSuccessRes "u" [] 1

/-! ### C2 — idempotence of the completion step -/

/-- C2 counterexample: the claim says a second resolution for an id whose
handle was already resolved is a no-op and never raises; but when the id is
still registered with an already-resolved future, the guarded
`set_result` call raises `InvalidStateError`. -/
theorem resolve_twice_registered_raises :
    resolveStep [(7, .resolved rX)] 7 rX = .error "InvalidStateError" := rfl

/-- C2 (amended): a second resolution attempt is a no-op and raises nothing
when the id is no longer registered (the waiter having removed it); when the
id is still registered and its handle already resolved, the second
`set_result` raises `InvalidStateError` instead of being a no-op. -/
theorem resolve_second_attempt (pending : List (Nat × FState)) (rid : Nat) (r : Res) :
    (lookupA pending rid = none → resolveStep pending rid r = .ok pending) ∧
    (∀ r', lookupA pending rid = some (.resolved r') →
      resolveStep pending rid r = .error "InvalidStateError") := by
  constructor
  · intro h
    simp [resolveStep, h]
  · intro r' h
    simp [resolveStep, h]

theorem resolve_second_attempt_w :
    resolveStep [] 0 rX = .ok [] ∧
      resolveStep [(3, .resolved rX)] 3 rX = .error "InvalidStateError" :=
  ⟨(resolve_second_attempt [] 0 rX).1 rfl,
   (resolve_second_attempt [(3, .resolved rX)] 3 rX).2 rX rfl⟩

/-! ### C3 — the handler always stores and resolves, and never escapes -/

/-- C3: for every work unit whose correlation id is registered with a
pending (unresolved) future, the request handler returns normally (`ok`, no
exception escapes into the engine loop), writes the assembled ScrapeResult
into the result store, and resolves exactly that future — both when the
pipeline succeeds and when any of its steps raises (`env` and the page are
universally quantified, so this covers load failures, captcha detection and
extraction failures). -/
theorem handler_always_resolves (pending : List (Nat × FState)) (store : List (Nat × Res))
    (rid : Nat) (url : String) (page : Page) (sels : List (String × Option String))
    (env : Option StepFailure) (dur : Nat)
    (h : lookupA pending rid = some .unresolved) :
    request_handler pending store rid url page sels env dur =
      .ok (updateA pending rid (.resolved (handlerResult url page sels env dur)),
           insertA store rid (handlerResult url page sels env dur)) ∧
    lookupA (insertA store rid (handlerResult url page sels env dur)) rid =
      some (handlerResult url page sels env dur) ∧
    lookupA (updateA pending rid (.resolved (handlerResult url page sels env dur))) rid =
      some (.resolved (handlerResult url page sels env dur)) := by
  refine ⟨?_, lookupA_insertA_self _ _ _, lookupA_updateA_self _ _ _ _ h⟩
  simp [request_handler, resolveStep, h]

theorem handler_always_resolves_w :
    request_handler [(0, .unresolved)] [] 0 "u" trivPage [] (some (.load "boom")) 4 =
      .ok ([(0, .resolved (handlerResult "u" trivPage [] (some (.load "boom")) 4))],
           [(0, handlerResult "u" trivPage [] (some (.load "boom")) 4)]) :=
  (handler_always_resolves [(0, .unresolved)] [] 0 "u" trivPage []
    (some (.load "boom")) 4 rfl).1

/-! ### C5 — status and error classification of the assembled result -/

/-- C5 counterexample: the claim says any exception other than the captcha
check yields status 500 with error_type scraping_error; but an extraction
failure whose message happens to contain "CAPTCHA" (on a page where
`detect_captcha` is false) is classified 422 / captcha_detected. -/
theorem status_contract_cex :
    detect_captcha trivPage = false ∧
    (handlerResult "u" trivPage [] (some (.extract "boom CAPTCHA boom")) 5).status = 422 ∧
    (handlerResult "u" trivPage [] (some (.extract "boom CAPTCHA boom")) 5).error_type =
      some "captcha_detected" := by
  refine ⟨rfl, rfl, rfl⟩

/-- C5 (amended): with no environment failure and no captcha the result is
status 200 with no error fields and the extracted data; when the captcha
check detects a captcha (for example the page text contains
"verify you are human") the result is 422 / captcha_detected; any other
exception yields 500 / scraping_error when its message does not contain
"CAPTCHA" (and 422 / captcha_detected when it does); every result carries
the elapsed duration in milliseconds. -/
theorem status_contract (url : String) (page : Page)
    (sels : List (String × Option String)) (dur : Nat) :
    (detect_captcha page = false →
      handlerResult url page sels none dur =
        mkSuccessRes url (extract_with_fallbacks page sels) dur ∧
      (handlerResult url page sels none dur).status = 200 ∧
      (handlerResult url page sels none dur).error_type = none ∧
      (handlerResult url page sels none dur).error_message = none) ∧
    (detect_captcha page = true →
      (handlerResult url page sels none dur).status = 422 ∧
      (handlerResult url page sels none dur).error_type = some "captcha_detected") ∧
    (∀ m, (handlerResult url page sels (some (.load m)) dur).status =
        (if containsSub m "CAPTCHA" = true then 422 else 500) ∧
      (handlerResult url page sels (some (.load m)) dur).error_type =
        some (classifyError m)) ∧
    (∀ env, (handlerResult url page sels env dur).duration_ms = dur) := by
  refine ⟨?_, ?_, ?_, ?_⟩
  · intro h
    simp [handlerResult, pipelineRun, h, mkSuccessRes]
  · intro h
    have hc : containsSub "CAPTCHA detected on page" "CAPTCHA" = true := rfl
    simp [handlerResult, pipelineRun, h, mkErrorRes, classifyError, hc]
  · intro m
    by_cases hc : containsSub m "CAPTCHA" = true
    · simp [handlerResult, pipelineRun, mkErrorRes, classifyError, hc]
    · simp [handlerResult, pipelineRun, mkErrorRes, classifyError, hc]
  · intro env
    cases hp : pipelineRun page sels env <;>
      simp [handlerResult, hp, mkSuccessRes, mkErrorRes]

theorem status_contract_w :
    (handlerResult "u" capPage [] none 7).status = 422 ∧
    (handlerResult "u" trivPage [] none 7).status = 200 ∧
    (handlerResult "u" trivPage [] (some (.load "net::ERR")) 7).status = 500 ∧
    (handlerResult "u" capPage [] none 7).duration_ms = 7 := by
  refine ⟨((status_contract "u" capPage [] 7).2.1 (by decide)).1,
    ((status_contract "u" trivPage [] 7).1 (by decide)).2.1, ?_, ?_⟩
  · have h := ((status_contract "u" trivPage [] 7).2.2.1 "net::ERR").1
    rw [h]
    decide
  · exact (status_contract "u" capPage [] 7).2.2.2 none

/-! ### C6 — the title fallback chain -/

/-- C6 counterexample: with an empty selectors map the caller supplies no
selector for "title"; on a page with no `h1` but with a non-empty
`.article-title` the claim requires extraction to return the first non-empty
match of the documented chain ("Fallback Title"), yet the code's
no-selectors branch tries only `h1` and returns no title at all. -/
theorem title_fallback_cex :
    lookupA (extract_with_fallbacks cexPage []) "title" = none ∧
    specFirstMatch cexPage ((lookupA fallbacks "title").getD []) = "Fallback Title" := by
  refine ⟨rfl, by decide⟩

/-- C6 (amended): when the caller requests the field "title" but supplies no
css selector for it, extraction walks the documented fallback chain `h1`,
`.article-title`, `.entry-title`, `.post-title`, `[itemprop=headline]`,
`meta[property=og:title]` in order and returns the (stripped) value of the
first selector yielding a non-empty match (the content attribute for the
meta-shaped selector); when the caller supplies no selectors at all, only
`h1` is consulted for the title. -/
theorem title_fallback_chain (page : Page) :
    lookupA (extract_with_fallbacks page [("title", none)]) "title" =
      some (specFirstMatch page
        ["h1", ".article-title", ".entry-title", ".post-title",
         "[itemprop=\x27headline\x27]", "meta[property=\x27og:title\x27]"]) := by
  have hl : lookupA fallbacks (pyLower "title") =
      some ["h1", ".article-title", ".entry-title", ".post-title",
        "[itemprop=\x27headline\x27]", "meta[property=\x27og:title\x27]"] := by decide
  have hfield : extractField page "title" none =
      pyStrip ((tryFallbacks page
        ["h1", ".article-title", ".entry-title", ".post-title",
         "[itemprop=\x27headline\x27]", "meta[property=\x27og:title\x27]"] none).getD "") := by
    simp only [extractField]
    rw [hl]
    simp [pyTruthy]
  simp only [extract_with_fallbacks, List.isEmpty_cons, Bool.false_eq_true, if_neg,
    List.map_cons, List.map_nil, lookupA, if_pos rfl]
  rw [hfield]
  exact congrArg some
    (tryFallbacks_eq_specFirstMatch page _ none (by exact pyStrip_empty))

theorem title_fallback_chain_w :
    lookupA (extract_with_fallbacks cexPage [("title", none)]) "title" =
      some "Fallback Title" := by
  rw [title_fallback_chain cexPage]
  decide

/-! ### C7 — resolution of registered and unregistered ids -/

/-- C7: a resolution attempt for an id that is not registered is silently
dropped — the call returns normally, raises nothing and leaves the registry
unchanged; for a registered id with a pending handle the resolution
completes exactly that handle with the given result and leaves every other
id's entry untouched. -/
theorem resolve_contract (pending : List (Nat × FState)) (rid : Nat) (r : Res) :
    (lookupA pending rid = none → resolveStep pending rid r = .ok pending) ∧
    (lookupA pending rid = some .unresolved →
      resolveStep pending rid r = .ok (updateA pending rid (.resolved r)) ∧
      lookupA (updateA pending rid (.resolved r)) rid = some (.resolved r) ∧
      ∀ id, id ≠ rid → lookupA (updateA pending rid (.resolved r)) id = lookupA pending id) := by
  constructor
  · intro h
    simp [resolveStep, h]
  · intro h
    exact ⟨by simp [resolveStep, h], lookupA_updateA_self _ _ _ _ h,
      fun id hid => lookupA_updateA_ne _ _ _ _ hid⟩

theorem resolve_contract_w :
    resolveStep [(9, FState.unresolved)] 0 rX = .ok [(9, FState.unresolved)] ∧
    resolveStep [(9, FState.unresolved)] 9 rX = .ok [(9, FState.resolved rX)] ∧
    lookupA (updateA [(9, FState.unresolved)] 9 (FState.resolved rX)) 9 =
      some (FState.resolved rX) := by
  refine ⟨(resolve_contract [(9, FState.unresolved)] 0 rX).1 rfl, ?_, ?_⟩
  · have h := ((resolve_contract [(9, FState.unresolved)] 9 rX).2 rfl).1
    rw [h]
    rfl
  · exact ((resolve_contract [(9, FState.unresolved)] 9 rX).2 rfl).2.1

/-! ### C9 — default timeout handling -/

/-- C9: an omitted, null or zero `timeout_ms` yields the default 30-second
deadline (the falsy check treats an explicit 0 as the default, not as an
immediate timeout); any non-zero `timeout_ms` yields timeout_ms/1000
seconds. -/
theorem timeout_default :
    scrapeTimeout none = 30 ∧ scrapeTimeout (some 0) = 30 ∧
    ∀ t : Int, t ≠ 0 → scrapeTimeout (some t) = (t : Rat) / 1000 := by
  refine ⟨rfl, by simp [scrapeTimeout], ?_⟩
  intro t ht
  simp [scrapeTimeout, ht]

theorem timeout_default_w :
    scrapeTimeout (some 100) = ((100 : Int) : Rat) / 1000 :=
  timeout_default.2.2 100 (by decide)

/-! ### C10 — classification is exactly the substring test on str(e) -/

/-- C10: the error branch of the handler classifies an exception solely by
whether the case-sensitive substring "CAPTCHA" occurs in `str(e)`: the
result is 422 / captcha_detected exactly when it does and
500 / scraping_error exactly when it does not, regardless of which pipeline
step raised the exception. -/
theorem captcha_classification (url e : String) (dur : Nat) :
    ((mkErrorRes url e dur).error_type = some "captcha_detected" ↔
      containsSub e "CAPTCHA" = true) ∧
    ((mkErrorRes url e dur).status = 422 ↔ containsSub e "CAPTCHA" = true) ∧
    (containsSub e "CAPTCHA" = false →
      (mkErrorRes url e dur).error_type = some "scraping_error" ∧
      (mkErrorRes url e dur).status = 500) ∧
    (∀ page sels env m dur2, pipelineRun page sels env = .error m →
      handlerResult url page sels env dur2 = mkErrorRes url m dur2) := by
  by_cases hc : containsSub e "CAPTCHA" = true
  · refine ⟨?_, ?_, ?_, ?_⟩
    · simp [mkErrorRes, classifyError, hc]
    · simp [mkErrorRes, classifyError, hc]
    · intro h
      rw [hc] at h
      exact absurd h (by decide)
    · intro page sels env m dur2 h
      simp [handlerResult, h]
  · refine ⟨?_, ?_, ?_, ?_⟩
    · simp [mkErrorRes, classifyError, hc]
    · simp [mkErrorRes, classifyError, hc]
    · intro h
      simp [mkErrorRes, classifyError, h]
    · intro page sels env m dur2 h
      simp [handlerResult, h]

theorem captcha_classification_w :
    (mkErrorRes "u" "RuntimeError: CAPTCHA widget" 3).status = 422 ∧
    (mkErrorRes "u" "net::ERR_TIMED_OUT" 3).status = 500 :=
  ⟨(captcha_classification "u" "RuntimeError: CAPTCHA widget" 3).2.1.mpr rfl,
   ((captcha_classification "u" "net::ERR_TIMED_OUT" 3).2.2.1 rfl).2⟩

/-! ### The concurrent system (routes.py scrape + the shared crawler loop)

State of the whole service process.  `running` is `app.state.crawler_running`;
`tasks` lists every crawler task created so far in creation order (`true` =
still running `crawler.run()`, `false` = finished), the last entry being
`app.state.crawler_task`; `pending` is `app.state.pending_requests`; `store`
is `app.state.requests_to_results`; `queue` is the crawler request queue;
caller `c` of the `/scrape` handler uses `c` itself as its request_id and is
tracked by a program counter plus the response it eventually produced.

Program counter of one `/scrape` caller, split at the `await` points of
routes.py: `s0` before creating/registering the future (line 46-47), `s1`
before `await crawler.add_requests` (line 58), `s2` before the
check-and-start block (lines 61-76), `s3` awaiting
`asyncio.wait_for(future, timeout)` (line 81), `s4` finished (response
produced, cleanup done). -/

inductive PC where
  | s0 | s1 | s2 | s3 | s4
deriving DecidableEq

structure Sys where
  running : Bool
  tasks : List Bool
  pending : List (Nat × FState)
  store : List (Nat × Res)
  queue : List Nat
  callers : List (PC × Option Res)
deriving DecidableEq

/-- Initial state: no loop, nothing registered, `n` callers about to run. -/
def initSys (n : Nat) : Sys :=
  ⟨false, [], [], [], [], List.replicate n (.s0, none)⟩

/-- The synthesized 408 timeout response (routes.py lines 86-98), built with
the default 30 s deadline. -/
def timeout408 : Res :=
  ⟨"", [], 408, 30000, some "timeout", some "Request timed out"⟩

/-- The condition of routes.py lines 61-63:
`not app.state.crawler_running or (app.state.crawler_task and
app.state.crawler_task.done())`. -/
def ensureCond (s : Sys) : Bool :=
  !s.running || (s.tasks.getLast? == some false)

/-- Caller `c` runs lines 46-47: create a future and register it. -/
def applyRegister (s : Sys) (c : Nat) (resp : Option Res) : Sys :=
  { s with pending := insertA s.pending c .unresolved,
           callers := setAt s.callers c (.s1, resp) }

/-- Caller `c` runs line 58: `await crawler.add_requests` appends its work
unit to the crawler queue. -/
def applyEnqueue (s : Sys) (c : Nat) (resp : Option Res) : Sys :=
  { s with queue := s.queue ++ [c],
           callers := setAt s.callers c (.s2, resp) }

/-- Caller `c` runs the check-and-start block (lines 61-76).  The whole
block contains no `await` before `create_task`, so it is one atomic step:
when the condition holds it sets the running flag and creates a new crawler
task in the same step. -/
def applyEnsure (s : Sys) (c : Nat) (resp : Option Res) : Sys :=
  if ensureCond s then
    { s with running := true, tasks := s.tasks ++ [true],
             callers := setAt s.callers c (.s3, resp) }
  else
    { s with callers := setAt s.callers c (.s3, resp) }

/-- Caller `c` wakes with the resolved result `r`: `await wait_for` returns,
then the `finally` block pops both maps (lines 99-103) and the response is
built from `r` (lines 106-117), all without an intervening await. -/
def applyWakeResult (s : Sys) (c : Nat) (r : Res) : Sys :=
  { s with pending := eraseA s.pending c, store := eraseA s.store c,
           callers := setAt s.callers c (.s4, some r) }

/-- Caller `c` times out: `wait_for` raises `TimeoutError`, the 408 response
is synthesized (lines 86-98) and the `finally` block pops both maps — again
one atomic step. -/
def applyWakeTimeout (s : Sys) (c : Nat) : Sys :=
  { s with pending := eraseA s.pending c, store := eraseA s.store c,
           callers := setAt s.callers c (.s4, some timeout408) }

/-- The active crawler task finishes: `crawler.run()` returns, the wrapper
`finally` resets `crawler_running` (routes.py lines 68-72), and the task is
done — atomic because no await separates these. -/
def applyFinish (s : Sys) : Sys :=
  { s with running := false, tasks := s.tasks.dropLast ++ [false] }

inductive Label where
  | register : Nat → Label
  | enqueue : Nat → Label
  | ensureRun : Nat → Label
  | wakeResult : Nat → Label
  | wakeTimeout : Nat → Label
  | process : Nat → Label
  | finish : Label
deriving DecidableEq

/-- One atomic step of the system.  The `process` step is the tail of the
request handler for the dequeued unit: it writes the result to the store
and runs the completion step (which must not raise, premise `hres`); it can
only run while a crawler task is active. -/
inductive Step : Label → Sys → Sys → Prop where
  | register (s : Sys) (c : Nat) (resp : Option Res)
      (h : getAt? s.callers c = some (.s0, resp)) :
      Step (.register c) s (applyRegister s c resp)
  | enqueue (s : Sys) (c : Nat) (resp : Option Res)
      (h : getAt? s.callers c = some (.s1, resp)) :
      Step (.enqueue c) s (applyEnqueue s c resp)
  | ensureRun (s : Sys) (c : Nat) (resp : Option Res)
      (h : getAt? s.callers c = some (.s2, resp)) :
      Step (.ensureRun c) s (applyEnsure s c resp)
  | wakeResult (s : Sys) (c : Nat) (resp : Option Res) (r : Res)
      (h : getAt? s.callers c = some (.s3, resp))
      (hr : lookupA s.pending c = some (.resolved r)) :
      Step (.wakeResult c) s (applyWakeResult s c r)
  | wakeTimeout (s : Sys) (c : Nat) (resp : Option Res)
      (h : getAt? s.callers c = some (.s3, resp))
      (hr : lookupA s.pending c = some .unresolved) :
      Step (.wakeTimeout c) s (applyWakeTimeout s c)
  | process (s : Sys) (c : Nat) (rest : List Nat) (r : Res) (p2 : List (Nat × FState))
      (hq : s.queue = c :: rest)
      (ht : s.tasks.getLast? = some true)
      (hres : resolveStep s.pending c r = .ok p2) :
      Step (.process c) s
        { s with queue := rest, store := insertA s.store c r, pending := p2 }
  | finish (s : Sys)
      (ht : s.tasks.getLast? = some true)
      (hq : s.queue = []) :
      Step .finish s (applyFinish s)

/-- Finite executions: a list of labelled steps. -/
inductive Exec : Sys → List Label → Sys → Prop where
  | nil (s : Sys) : Exec s [] s
  | cons {s s2 s3 : Sys} {l : Label} {ls : List Label} :
      Step l s s2 → Exec s2 ls s3 → Exec s (l :: ls) s3

def isFinish : Label → Bool
  | .finish => true
  | _ => false

def isEnsure : Label → Bool
  | .ensureRun _ => true
  | _ => false

/-! ### C1 — at most one active crawler loop -/

/-- Invariant: every crawler task except possibly the last has finished, and
when the last task is still active the running flag is set. -/
def InvT (s : Sys) : Prop :=
  (∀ b ∈ s.tasks.dropLast, b = false) ∧
  (s.tasks.getLast? = some true → s.running = true)

theorem ensureCond_iff (s : Sys) :
    ensureCond s = true ↔ s.running = false ∨ s.tasks.getLast? = some false := by
  simp [ensureCond]

theorem all_false_of_invT (s : Sys) (hInv : InvT s)
    (h : s.running = false ∨ s.tasks.getLast? = some false) :
    ∀ b ∈ s.tasks, b = false := by
  rcases List.eq_nil_or_concat s.tasks with hnil | ⟨L, a, hcat⟩
  · rw [hnil]
    intro b hb
    simp at hb
  · rw [List.concat_eq_append] at hcat
    have hdl := hInv.1
    have hlast := hInv.2
    rw [hcat] at hdl hlast ⊢
    rw [List.dropLast_concat] at hdl
    rw [List.getLast?_concat] at hlast
    have ha : a = false := by
      rcases h with hr | hl
      · cases a
        · rfl
        · exact absurd (hlast rfl) (by rw [hr]; decide)
      · rw [hcat, List.getLast?_concat] at hl
        exact Option.some_injective _ hl
    intro b hb
    rcases List.mem_append.mp hb with hb | hb
    · exact hdl b hb
    · simp at hb
      rw [hb, ha]

theorem count_true_le_one (l : List Bool) (h : ∀ b ∈ l.dropLast, b = false) :
    l.count true ≤ 1 := by
  rcases List.eq_nil_or_concat l with hnil | ⟨L, a, hcat⟩
  · rw [hnil]
    simp
  · rw [List.concat_eq_append] at hcat
    subst hcat
    rw [List.dropLast_concat] at h
    rw [List.count_append]
    have hL : L.count true = 0 :=
      List.count_eq_zero.mpr (fun hm => absurd (h true hm) (by decide))
    rw [hL]
    cases a <;> simp

theorem invT_step {l : Label} {s s2 : Sys} (hst : Step l s s2) (hInv : InvT s) :
    InvT s2 := by
  cases hst with
  | register s c resp h => exact hInv
  | enqueue s c resp h => exact hInv
  | ensureRun s c resp h =>
    by_cases hc : ensureCond s = true
    · have hall := all_false_of_invT s hInv ((ensureCond_iff s).mp hc)
      constructor
      · show ∀ b ∈ ((applyEnsure s c resp).tasks).dropLast, b = false
        simp only [applyEnsure, if_pos hc]
        rw [List.dropLast_concat]
        exact hall
      · intro _
        simp [applyEnsure, if_pos hc]
    · have hc2 : ensureCond s = false := by
        cases hcc : ensureCond s
        · rfl
        · exact absurd hcc hc
      constructor
      · show ∀ b ∈ ((applyEnsure s c resp).tasks).dropLast, b = false
        simp only [applyEnsure, if_neg hc]
        exact hInv.1
      · intro hh
        simp only [applyEnsure, if_neg hc] at hh ⊢
        exact hInv.2 hh
  | wakeResult s c resp r h hr => exact hInv
  | wakeTimeout s c resp h hr => exact hInv
  | process s c rest r p2 hq ht hres => exact hInv
  | finish s ht hq =>
    constructor
    · show ∀ b ∈ ((applyFinish s).tasks).dropLast, b = false
      simp only [applyFinish]
      rw [List.dropLast_concat]
      exact hInv.1
    · intro hh
      simp only [applyFinish] at hh
      rw [List.getLast?_concat] at hh
      exact absurd (Option.some_injective _ hh) (by decide)

theorem invT_exec {s s2 : Sys} {ls : List Label} (hex : Exec s ls s2) (hInv : InvT s) :
    InvT s2 := by
  induction hex with
  | nil s => exact hInv
  | cons hstep hrest ih => exact ih (invT_step hstep hInv)

/-- "A loop has never been started": no tasks, flag down. -/
def JL (s : Sys) : Prop := s.tasks = [] ∧ s.running = false

/-- "Exactly one loop was started and is still active." -/
def JR (s : Sys) : Prop := s.tasks = [true] ∧ s.running = true

theorem step_JR {l : Label} {s s2 : Sys} (hst : Step l s s2)
    (hnf : isFinish l = false) (h : JR s) : JR s2 := by
  cases hst with
  | register s c resp hc => exact h
  | enqueue s c resp hc => exact h
  | ensureRun s c resp hc =>
    have hcond : ensureCond s = false := by
      simp [ensureCond, h.1, h.2]
    refine ⟨?_, ?_⟩ <;> simp only [applyEnsure, hcond] <;> simp [h.1, h.2]
  | wakeResult s c resp r hc hr => exact h
  | wakeTimeout s c resp hc hr => exact h
  | process s c rest r p2 hq ht hres => exact h
  | finish s ht hq => exact absurd hnf (by simp [isFinish])

theorem step_JL_nonensure {l : Label} {s s2 : Sys} (hst : Step l s s2)
    (hnf : isFinish l = false) (hne : isEnsure l = false) (h : JL s) : JL s2 := by
  cases hst with
  | register s c resp hc => exact h
  | enqueue s c resp hc => exact h
  | ensureRun s c resp hc => exact absurd hne (by simp [isEnsure])
  | wakeResult s c resp r hc hr => exact h
  | wakeTimeout s c resp hc hr => exact h
  | process s c rest r p2 hq ht hres => exact h
  | finish s ht hq => exact absurd hnf (by simp [isFinish])

theorem step_JL_ensure {c : Nat} {s s2 : Sys} (hst : Step (.ensureRun c) s s2)
    (h : JL s) : JR s2 := by
  cases hst with
  | ensureRun s c resp hc =>
    have hcond : ensureCond s = true := by
      simp [ensureCond, h.2]
    refine ⟨?_, ?_⟩ <;> simp only [applyEnsure, hcond] <;> simp [h.1]

theorem exec_JR {s s2 : Sys} {ls : List Label} (hex : Exec s ls s2)
    (hnf : ∀ l ∈ ls, isFinish l = false) (h : JR s) : JR s2 := by
  induction hex with
  | nil s => exact h
  | cons hstep hrest ih =>
    exact ih (fun l hl => hnf l (List.mem_cons_of_mem _ hl))
      (step_JR hstep (hnf _ (List.mem_cons_self _ _)) h)

theorem exec_JL_ensure {s s2 : Sys} {ls : List Label} (hex : Exec s ls s2)
    (hnf : ∀ l ∈ ls, isFinish l = false) (h : JL s)
    (hens : ∃ l ∈ ls, isEnsure l = true) : JR s2 := by
  induction hex with
  | nil s =>
    obtain ⟨l, hl, _⟩ := hens
    simp at hl
  | @cons s s2 s3 l ls hstep hrest ih =>
    by_cases he : isEnsure l = true
    · have : ∃ c, l = .ensureRun c := by
        cases l <;> simp [isEnsure] at he ⊢
      obtain ⟨c, rfl⟩ := this
      exact exec_JR hrest (fun l2 hl2 => hnf l2 (List.mem_cons_of_mem _ hl2))
        (step_JL_ensure hstep h)
    · have he2 : isEnsure l = false := by
        cases hee : isEnsure l
        · rfl
        · exact absurd hee he
      have h2 : JL s2 := step_JL_nonensure hstep (hnf _ (List.mem_cons_self _ _)) he2 h
      obtain ⟨l2, hl2, he3⟩ := hens
      rcases List.mem_cons.mp hl2 with rfl | hl3
      · exact absurd he3 he
      · exact ih (fun l3 hl3 => hnf l3 (List.mem_cons_of_mem _ hl3)) h2 ⟨l2, hl3, he3⟩

/-- C1: in every execution of the system from an idle initial state (any
number of concurrent `/scrape` callers, no loop active) at most one crawler
task is active in every reachable state — the check-and-start block runs
atomically on the event loop, so concurrent callers never start two
competing loops; moreover, as long as no loop has finished, once some caller
has executed the check-and-start block there is exactly one task, i.e. the
step started exactly one loop. -/
theorem loop_exclusion (n : Nat) (ls : List Label) (s : Sys)
    (hex : Exec (initSys n) ls s) :
    s.tasks.count true ≤ 1 ∧
    ((∀ l ∈ ls, isFinish l = false) → (∃ l ∈ ls, isEnsure l = true) →
      s.tasks = [true]) := by
  constructor
  · refine count_true_le_one s.tasks (invT_exec hex ?_).1
    exact ⟨by simp [initSys], by simp [initSys]⟩
  · intro hnf hens
    exact (exec_JL_ensure hex hnf ⟨rfl, rfl⟩ hens).1

def w1s : Sys := applyEnsure (applyEnqueue (applyRegister (initSys 2) 0 none) 0 none) 0 none

theorem loop_exclusion_w : w1s.tasks = [true] := by
  have hex : Exec (initSys 2) [.register 0, .enqueue 0, .ensureRun 0] w1s :=
    Exec.cons (Step.register (initSys 2) 0 none rfl)
      (Exec.cons (Step.enqueue _ 0 none rfl)
        (Exec.cons (Step.ensureRun _ 0 none rfl) (Exec.nil _)))
  exact (loop_exclusion 2 _ w1s hex).2 (by decide) ⟨.ensureRun 0, by simp, rfl⟩

/-! ### C8 — registration precedes enqueue; only the waiter removes -/

theorem applyEnsure_pending (s : Sys) (c : Nat) (resp : Option Res) :
    (applyEnsure s c resp).pending = s.pending := by
  unfold applyEnsure
  split <;> rfl

theorem applyEnsure_callers (s : Sys) (c : Nat) (resp : Option Res) :
    (applyEnsure s c resp).callers = setAt s.callers c (PC.s3, resp) := by
  unfold applyEnsure
  split <;> rfl

theorem applyEnsure_queue (s : Sys) (c : Nat) (resp : Option Res) :
    (applyEnsure s c resp).queue = s.queue := by
  unfold applyEnsure
  split <;> rfl

theorem applyEnsure_store (s : Sys) (c : Nat) (resp : Option Res) :
    (applyEnsure s c resp).store = s.store := by
  unfold applyEnsure
  split <;> rfl

/-- The completion step never changes which ids are registered. -/
theorem resolveStep_none_iff (p p2 : List (Nat × FState)) (rid : Nat) (r : Res)
    (h : resolveStep p rid r = .ok p2) (id : Nat) :
    (lookupA p2 id = none ↔ lookupA p id = none) := by
  unfold resolveStep at h
  cases hl : lookupA p rid with
  | none =>
    rw [hl] at h
    injection h with h2
    rw [← h2]
  | some fs =>
    cases fs with
    | unresolved =>
      rw [hl] at h
      injection h with h2
      rw [← h2]
      by_cases hid : id = rid
      · subst hid
        rw [lookupA_updateA_self _ _ _ _ hl, hl]
        simp
      · rw [lookupA_updateA_ne _ _ _ _ hid]
    | resolved r2 =>
      rw [hl] at h
      exact Except.noConfusion h

/-- Invariant: a caller that has executed its registration step (lines
46-47) and has not yet woken is registered in `pending_requests`. -/
def InvReg (s : Sys) : Prop :=
  ∀ c pr, getAt? s.callers c = some pr →
    (pr.1 = PC.s1 ∨ pr.1 = PC.s2 ∨ pr.1 = PC.s3) →
    lookupA s.pending c ≠ none

theorem getAt?_replicate {α : Type} (n c : Nat) (x y : α)
    (h : getAt? (List.replicate n x) c = some y) : y = x := by
  induction n generalizing c with
  | zero => exact Option.noConfusion h
  | succ m ih =>
    cases c with
    | zero =>
      injection h with h2
      exact h2.symm
    | succ c2 => exact ih c2 h

theorem invReg_init (n : Nat) : InvReg (initSys n) := by
  intro c pr hg hp
  have hpr : pr = (PC.s0, none) := getAt?_replicate n c _ _ hg
  rw [hpr] at hp
  rcases hp with h | h | h <;> exact absurd h (by decide)

theorem invReg_step {l : Label} {s s2 : Sys} (hst : Step l s s2) (hInv : InvReg s) :
    InvReg s2 := by
  cases hst with
  | register s c resp h =>
    intro c2 pr hg hp
    by_cases hc : c2 = c
    · subst hc
      rw [show (applyRegister s c2 resp).pending = insertA s.pending c2 .unresolved from rfl,
        lookupA_insertA_self]
      simp
    · rw [show (applyRegister s c resp).callers = setAt s.callers c (PC.s1, resp) from rfl,
        getAt?_setAt_ne _ _ _ _ hc] at hg
      rw [show (applyRegister s c resp).pending = insertA s.pending c .unresolved from rfl,
        lookupA_insertA_ne _ _ _ _ hc]
      exact hInv c2 pr hg hp
  | enqueue s c resp h =>
    intro c2 pr hg hp
    rw [show (applyEnqueue s c resp).pending = s.pending from rfl]
    by_cases hc : c2 = c
    · subst hc
      exact hInv c2 (PC.s1, resp) h (Or.inl rfl)
    · rw [show (applyEnqueue s c resp).callers = setAt s.callers c (PC.s2, resp) from rfl,
        getAt?_setAt_ne _ _ _ _ hc] at hg
      exact hInv c2 pr hg hp
  | ensureRun s c resp h =>
    intro c2 pr hg hp
    rw [applyEnsure_pending]
    rw [applyEnsure_callers] at hg
    by_cases hc : c2 = c
    · subst hc
      exact hInv c2 (PC.s2, resp) h (Or.inr (Or.inl rfl))
    · rw [getAt?_setAt_ne _ _ _ _ hc] at hg
      exact hInv c2 pr hg hp
  | wakeResult s c resp r h hr =>
    intro c2 pr hg hp
    by_cases hc : c2 = c
    · subst hc
      rw [show (applyWakeResult s c2 r).callers = setAt s.callers c2 (PC.s4, some r) from rfl,
        getAt?_setAt_self _ _ _ _ h] at hg
      injection hg with hpr
      rw [← hpr] at hp
      rcases hp with hx | hx | hx <;> simp at hx
    · rw [show (applyWakeResult s c r).pending = eraseA s.pending c from rfl,
        lookupA_eraseA_ne _ _ _ hc]
      rw [show (applyWakeResult s c r).callers = setAt s.callers c (PC.s4, some r) from rfl,
        getAt?_setAt_ne _ _ _ _ hc] at hg
      exact hInv c2 pr hg hp
  | wakeTimeout s c resp h hr =>
    intro c2 pr hg hp
    by_cases hc : c2 = c
    · subst hc
      rw [show (applyWakeTimeout s c2).callers =
          setAt s.callers c2 (PC.s4, some timeout408) from rfl,
        getAt?_setAt_self _ _ _ _ h] at hg
      injection hg with hpr
      rw [← hpr] at hp
      rcases hp with hx | hx | hx <;> simp at hx
    · rw [show (applyWakeTimeout s c).pending = eraseA s.pending c from rfl,
        lookupA_eraseA_ne _ _ _ hc]
      rw [show (applyWakeTimeout s c).callers =
          setAt s.callers c (PC.s4, some timeout408) from rfl,
        getAt?_setAt_ne _ _ _ _ hc] at hg
      exact hInv c2 pr hg hp
  | process s c rest r p2 hq ht hres =>
    intro c2 pr hg hp hnone
    exact hInv c2 pr hg hp ((resolveStep_none_iff s.pending p2 c r hres c2).mp hnone)
  | finish s ht hq =>
    intro c2 pr hg hp
    exact hInv c2 pr hg hp

theorem invReg_exec {s s2 : Sys} {ls : List Label} (hex : Exec s ls s2)
    (hInv : InvReg s) : InvReg s2 := by
  induction hex with
  | nil s => exact hInv
  | cons hstep hrest ih => exact ih (invReg_step hstep hInv)

/-- C8: in every reachable state, a step that enqueues caller c's work unit
finds c's correlation id already registered (registration at lines 46-47
strictly precedes the enqueue await at line 58); and any step that removes
a registered id from the registry is the wake step (result consumed or
timeout) of the very caller owning that id — the engine-side handler and
loop steps never remove registry entries. -/
theorem register_before_enqueue (n : Nat) (ls : List Label) (s s2 : Sys) (l : Label)
    (hex : Exec (initSys n) ls s) (hst : Step l s s2) :
    (∀ c, l = .enqueue c → lookupA s.pending c ≠ none) ∧
    (∀ id, lookupA s.pending id ≠ none → lookupA s2.pending id = none →
      l = .wakeResult id ∨ l = .wakeTimeout id) := by
  constructor
  · intro c hl
    subst hl
    cases hst with
    | enqueue s c resp h =>
      exact invReg_exec hex (invReg_init n) c (PC.s1, resp) h (Or.inl rfl)
  · intro id h1 h2
    cases hst with
    | register s c resp h =>
      by_cases hc : id = c
      · subst hc
        rw [show (applyRegister s id resp).pending = insertA s.pending id .unresolved from rfl,
          lookupA_insertA_self] at h2
        exact Option.noConfusion h2
      · rw [show (applyRegister s c resp).pending = insertA s.pending c .unresolved from rfl,
          lookupA_insertA_ne _ _ _ _ hc] at h2
        exact absurd h2 h1
    | enqueue s c resp h => exact absurd h2 h1
    | ensureRun s c resp h =>
      rw [applyEnsure_pending] at h2
      exact absurd h2 h1
    | wakeResult s c resp r h hr =>
      by_cases hc : id = c
      · subst hc
        exact Or.inl rfl
      · rw [show (applyWakeResult s c r).pending = eraseA s.pending c from rfl,
          lookupA_eraseA_ne _ _ _ hc] at h2
        exact absurd h2 h1
    | wakeTimeout s c resp h hr =>
      by_cases hc : id = c
      · subst hc
        exact Or.inr rfl
      · rw [show (applyWakeTimeout s c).pending = eraseA s.pending c from rfl,
          lookupA_eraseA_ne _ _ _ hc] at h2
        exact absurd h2 h1
    | process s c rest r p2 hq ht hres =>
      exact absurd ((resolveStep_none_iff s.pending p2 c r hres id).mp h2) h1
    | finish s ht hq => exact absurd h2 h1

def w8a : Sys := applyRegister (initSys 1) 0 none

theorem register_before_enqueue_w : lookupA w8a.pending 0 ≠ none := by
  have hex : Exec (initSys 1) [.register 0] w8a :=
    Exec.cons (Step.register (initSys 1) 0 none rfl) (Exec.nil _)
  have hst : Step (.enqueue 0) w8a (applyEnqueue w8a 0 none) :=
    Step.enqueue w8a 0 none rfl
  exact (register_before_enqueue 1 [.register 0] w8a (applyEnqueue w8a 0 none)
    (.enqueue 0) hex hst).1 0 rfl

/-! ### C4 — timeout path: 408 response, harmless late resolution, but an
orphaned result-store entry -/

/-- The ScrapeResult the handler produces after the caller has already
timed out. -/
def rLate : Res := mkSuccessRes "u" [] 50

def c4s1 : Sys := applyRegister (initSys 1) 0 none

def c4s2 : Sys := applyEnqueue c4s1 0 none

def c4s3 : Sys := applyEnsure c4s2 0 none

def c4s4 : Sys := applyWakeTimeout c4s3 0

/-- The state after the timed-out caller cleaned up and the handler then
processed the still-queued unit: the late result sits in the store. -/
def c4Final : Sys :=
  { running := c4s4.running, tasks := c4s4.tasks, pending := [],
    store := insertA c4s4.store 0 rLate, queue := [], callers := c4s4.callers }

/-- Once caller 0 has finished (pc s4) with its unit out of the queue, its
store entry is never touched again. -/
def OrphanInv (s : Sys) : Prop :=
  (∃ rr, getAt? s.callers 0 = some (PC.s4, rr)) ∧
  (0 ∉ s.queue) ∧ lookupA s.store 0 = some rLate

theorem orphan_step {l : Label} {s s2 : Sys} (hst : Step l s s2)
    (hInv : OrphanInv s) : OrphanInv s2 := by
  obtain ⟨⟨rr, hpc⟩, hq0, hst0⟩ := hInv
  cases hst with
  | register s c resp h =>
    have hc : c ≠ 0 := by
      intro hh
      rw [hh, hpc] at h
      injection h with h2
      exact PC.noConfusion (congrArg Prod.fst h2)
    refine ⟨⟨rr, ?_⟩, hq0, hst0⟩
    rw [show (applyRegister s c resp).callers = setAt s.callers c (PC.s1, resp) from rfl,
      getAt?_setAt_ne _ _ _ _ (fun hh => hc hh.symm)]
    exact hpc
  | enqueue s c resp h =>
    have hc : c ≠ 0 := by
      intro hh
      rw [hh, hpc] at h
      injection h with h2
      exact PC.noConfusion (congrArg Prod.fst h2)
    refine ⟨⟨rr, ?_⟩, ?_, hst0⟩
    · rw [show (applyEnqueue s c resp).callers = setAt s.callers c (PC.s2, resp) from rfl,
        getAt?_setAt_ne _ _ _ _ (fun hh => hc hh.symm)]
      exact hpc
    · intro hmem
      rw [show (applyEnqueue s c resp).queue = s.queue ++ [c] from rfl] at hmem
      rcases List.mem_append.mp hmem with hmem | hmem
      · exact hq0 hmem
      · simp at hmem
        exact hc hmem.symm
  | ensureRun s c resp h =>
    have hc : c ≠ 0 := by
      intro hh
      rw [hh, hpc] at h
      injection h with h2
      exact PC.noConfusion (congrArg Prod.fst h2)
    refine ⟨⟨rr, ?_⟩, ?_, ?_⟩
    · rw [applyEnsure_callers, getAt?_setAt_ne _ _ _ _ (fun hh => hc hh.symm)]
      exact hpc
    · rw [applyEnsure_queue]
      exact hq0
    · rw [applyEnsure_store]
      exact hst0
  | wakeResult s c resp r h hr =>
    have hc : c ≠ 0 := by
      intro hh
      rw [hh, hpc] at h
      injection h with h2
      exact PC.noConfusion (congrArg Prod.fst h2)
    refine ⟨⟨rr, ?_⟩, hq0, ?_⟩
    · rw [show (applyWakeResult s c r).callers = setAt s.callers c (PC.s4, some r) from rfl,
        getAt?_setAt_ne _ _ _ _ (fun hh => hc hh.symm)]
      exact hpc
    · rw [show (applyWakeResult s c r).store = eraseA s.store c from rfl,
        lookupA_eraseA_ne _ _ _ (fun hh => hc hh.symm)]
      exact hst0
  | wakeTimeout s c resp h hr =>
    have hc : c ≠ 0 := by
      intro hh
      rw [hh, hpc] at h
      injection h with h2
      exact PC.noConfusion (congrArg Prod.fst h2)
    refine ⟨⟨rr, ?_⟩, hq0, ?_⟩
    · rw [show (applyWakeTimeout s c).callers =
          setAt s.callers c (PC.s4, some timeout408) from rfl,
        getAt?_setAt_ne _ _ _ _ (fun hh => hc hh.symm)]
      exact hpc
    · rw [show (applyWakeTimeout s c).store = eraseA s.store c from rfl,
        lookupA_eraseA_ne _ _ _ (fun hh => hc hh.symm)]
      exact hst0
  | process s c rest r p2 hq ht hres =>
    have hc : c ≠ 0 := by
      intro hh
      rw [hh] at hq
      exact hq0 (by rw [hq]; exact List.mem_cons_self _ _)
    refine ⟨⟨rr, hpc⟩, ?_, ?_⟩
    · intro hmem
      exact hq0 (by rw [hq]; exact List.mem_cons_of_mem _ hmem)
    · show lookupA (insertA s.store c r) 0 = some rLate
      rw [lookupA_insertA_ne _ _ _ _ (fun hh => hc hh.symm)]
      exact hst0
  | finish s ht hq => exact ⟨⟨rr, hpc⟩, hq0, hst0⟩

theorem orphan_exec {s s2 : Sys} {ls : List Label} (hex : Exec s ls s2)
    (hInv : OrphanInv s) : OrphanInv s2 := by
  induction hex with
  | nil s => exact hInv
  | cons hstep hrest ih => exact ih (orphan_step hstep hInv)

/-- C4: the trace in which the single caller times out before the engine
processes its unit.  The caller finishes with the synthesized 408 / timeout
response; the late in-flight resolution afterwards runs without raising
(the completion step returns ok — the id is gone, so the result is dropped);
BUT the handler writes the late ScrapeResult into
`app.state.requests_to_results` after the caller-side cleanup already ran,
and no later step of any continuation ever removes it: the entry stays
forever, contradicting the claim that the store is empty of that id after a
bounded grace period. -/
theorem timeout_orphan :
    Exec (initSys 1) [.register 0, .enqueue 0, .ensureRun 0, .wakeTimeout 0, .process 0]
      c4Final ∧
    getAt? c4Final.callers 0 = some (PC.s4, some timeout408) ∧
    timeout408.status = 408 ∧
    timeout408.error_type = some "timeout" ∧
    resolveStep c4s4.pending 0 rLate = .ok c4s4.pending ∧
    lookupA c4Final.store 0 = some rLate ∧
    (∀ ls s2, Exec c4Final ls s2 → lookupA s2.store 0 = some rLate) := by
  refine ⟨?_, rfl, rfl, rfl, rfl, rfl, ?_⟩
  · exact Exec.cons (Step.register (initSys 1) 0 none rfl)
      (Exec.cons (Step.enqueue c4s1 0 none rfl)
      (Exec.cons (Step.ensureRun c4s2 0 none rfl)
      (Exec.cons (Step.wakeTimeout c4s3 0 none rfl rfl)
      (Exec.cons (Step.process c4s4 0 [] rLate c4s4.pending rfl rfl rfl)
      (Exec.nil c4Final)))))
  · intro ls s2 hex
    exact (orphan_exec hex ⟨⟨some timeout408, rfl⟩, by simp [c4Final], rfl⟩).2.2

theorem timeout_orphan_w : lookupA c4Final.store 0 = some rLate :=
  timeout_orphan.2.2.2.2.2.2 [] c4Final (Exec.nil c4Final)

end NewsNewt
